import Mathlib

/-!
Verification of the extraction-and-normalization pipeline of `src/z10.py`.

Strings are modelled as `List Char`.  Python's `int()` accepts optional
surrounding whitespace and an optional sign before a nonempty digit run; we
model ASCII whitespace and decimal digits (Python additionally accepts
underscore digit separators and Unicode digits, which no claim exercises).
Machine integers do not occur: Python integers are unbounded, so `Int`/`Nat`
are exact models.
-/

/-- ASCII model of the whitespace class used by Python's `str.strip()` and by
`\s` in `re` patterns: space, tab, newline, carriage return, vertical tab and
form feed. -/
def isPySpace (c : Char) : Bool :=
  c = ' ' || c = '\t' || c = '\n' || c = '\r' || c = '\x0b' || c = '\x0c'

/-- The character class `[\d,.]` of the accounting-negative regex in
`clean_dataframe`. -/
def isNumRunChar (c : Char) : Bool :=
  c.isDigit || c = ',' || c = '.'

/-- Remove the trailing run of characters satisfying `p` (right-hand side of
Python's `str.strip`/`str.rstrip`). -/
def rstripP (p : Char → Bool) : List Char → List Char
  | [] => []
  | x :: xs =>
    let r := rstripP p xs
    if r.isEmpty && p x then [] else x :: r

/-- Remove leading and trailing characters satisfying `p`: the semantics of
Python's two-sided `str.strip` with an arbitrary character class. -/
def stripP (p : Char → Bool) (s : List Char) : List Char :=
  rstripP p (s.dropWhile p)

/-- Python `s.strip()` (no argument): strip whitespace from both ends. -/
def pyStrip (s : List Char) : List Char :=
  stripP isPySpace s

/-- Membership in an explicit character set, for Python `s.strip('() ')`. -/
def inSet (set : List Char) (c : Char) : Bool :=
  set.contains c

/-- Python `s.strip(chars)`: strip any characters of `chars` from both ends. -/
def pyStripSet (chars : List Char) (s : List Char) : List Char :=
  stripP (inSet chars) s

/-- Decimal value of a digit run (most significant digit first). -/
def digitsVal (ds : List Char) : Nat :=
  ds.foldl (fun a c => a * 10 + (c.toNat - '0'.toNat)) 0

/-- A nonempty all-digit run, or `none`. -/
def pyDigits? (ds : List Char) : Option Nat :=
  if !ds.isEmpty && ds.all Char.isDigit then some (digitsVal ds) else none

/-- Python `int(s)` for a decimal literal: optional surrounding whitespace,
optional sign, nonempty digit run; `none` models the `ValueError`. -/
def pyInt? (s : List Char) : Option Int :=
  match pyStrip s with
  | '-' :: ds => (pyDigits? ds).map (fun n => -(n : Int))
  | '+' :: ds => (pyDigits? ds).map (fun n => (n : Int))
  | ds => (pyDigits? ds).map (fun n => (n : Int))

/-- Python `range(a, b)` over `Int`, as a list. -/
def pyRange (a b : Int) : List Int :=
  (List.range (b - a).toNat).map (fun (i : Nat) => a + (i : Int))

/-- Python `str.lower`, ASCII model (used for the `pages.lower() == 'all'`
tests). -/
def pyLower (s : List Char) : List Char :=
  s.map Char.toLower

/-- Python `str.upper`, ASCII model (used by `start_extraction` on the client
name). -/
def pyUpper (s : List Char) : List Char :=
  s.map Char.toUpper

/-- The contribution of one comma-separated token of the page spec, from the
loop body of `parse_page_numbers`: a hyphenated token `a-b` contributes
`range(a-1, b)`, a plain token `n` contributes `[n-1]`; `none` models the
`ValueError` raised by `int()` or by unpacking `part.split('-')` into two
variables. -/
def tokenContrib (part : List Char) : Option (List Int) :=
  if part.contains '-' then
    match part.splitOn '-' with
    | [s, e] =>
      match pyInt? s, pyInt? e with
      | some start, some stop => some (pyRange (start - 1) stop)
      | _, _ => none
    | _ => none
  else
    (pyInt? part).map (fun n => [n - 1])

/-- The token loop of `parse_page_numbers`: concatenate the contributions in
order, aborting with the first offending token. -/
def parsePartsAcc : List (List Char) → Except (List Char) (List Int)
  | [] => Except.ok []
  | part :: rest =>
    match tokenContrib part with
    | some l => (parsePartsAcc rest).map (fun r => l ++ r)
    | none => Except.error part

/-- `parse_page_numbers(pages, max_pages)` (z10.py lines 62-70): split on
commas, accumulate the 0-based contributions, then keep only indices
`< max_pages`.  The `Except.error` carries the token at which the Python
`ValueError` is raised. -/
def parse_page_numbers (pages : List Char) (max_pages : Int) :
    Except (List Char) (List Int) :=
  (parsePartsAcc (pages.splitOn ',')).map (fun l => l.filter (fun p => p < max_pages))

instance {ε α : Type} [DecidableEq ε] [DecidableEq α] : DecidableEq (Except ε α) :=
  fun a b =>
    match a, b with
    | Except.ok x, Except.ok y =>
      if h : x = y then isTrue (by rw [h]) else
        isFalse (by intro hh; injection hh; contradiction)
    | Except.error x, Except.error y =>
      if h : x = y then isTrue (by rw [h]) else
        isFalse (by intro hh; injection hh; contradiction)
    | Except.ok _, Except.error _ => isFalse (by intro hh; cases hh)
    | Except.error _, Except.ok _ => isFalse (by intro hh; cases hh)

/-- A cell of a table: a text cell (Python `str`, taken by the
`isinstance(cell, str)` branch) or any non-text value, which `clean_cell`
passes through untouched; the `Int` payload stands for an arbitrary non-string
value. -/
inductive Cell where
  | str : List Char → Cell
  | other : Int → Cell
deriving DecidableEq

/-- The inner trimmed-run test of the accounting-negative regex: after
removing whitespace from both ends of the text between the parentheses, a
nonempty run of `[\d,.]` characters must remain. -/
def parenCoreCheck (mid : List Char) : Bool :=
  let core := stripP isPySpace mid
  !core.isEmpty && core.all isNumRunChar

/-- Recognizer for `re.match(r'^\(\s*[\d,.]+\s*\)$', cell)`: first character
`'('`, last character `')'`, and the inside passes `parenCoreCheck`.  At its
only call site `cell` has just been `strip()`ed, so it cannot end in a
newline; the `$`-before-final-newline subtlety of Python's `re` therefore
cannot fire and end-of-string semantics for `$` is faithful. -/
def parenNumMatch (s : List Char) : Bool :=
  (s.head? == some '(') && (s.getLast? == some ')') &&
    parenCoreCheck ((s.drop 1).dropLast)

/-- `clean_cell` from `clean_dataframe` (z10.py lines 82-91): on a text cell,
remove every `'$'`, strip whitespace, and rewrite a parenthesized
accounting-negative as `'-' + cell.strip('() ').replace(',', '')`; non-text
cells pass through. -/
def clean_cell (cell : Cell) : Cell :=
  match cell with
  | Cell.str s0 =>
    let s := pyStrip (s0.filter (fun c => c ≠ '$'))
    if parenNumMatch s then
      Cell.str ('-' :: (pyStripSet ['(', ')', ' '] s).filter (fun c => c ≠ ','))
    else
      Cell.str s
  | c => c

/-- `clean_dataframe` (z10.py line 91): `df.map(clean_cell)`, applied to every
cell of every row. -/
def clean_dataframe (df : List (List Cell)) : List (List Cell) :=
  df.map (fun row => row.map clean_cell)

/-- The line accumulation of `extract_tables_pdfplumber` (z10.py lines 44-52)
over the selected pages' texts: `page.extract_text()` is `none` (Python
`None`) or a string; a page contributes its `split('\n')` lines exactly when
its text is truthy (`if text:`), i.e. present and nonempty. -/
def plumber_lines (pageTexts : List (Option (List Char))) : List (List Char) :=
  pageTexts.foldl
    (fun acc t =>
      match t with
      | some s => if s.isEmpty then acc else acc ++ s.splitOn '\n'
      | none => acc)
    []

/-- The single-column `DataFrame({"Extracted Text": all_text})` built by
`extract_tables_pdfplumber`: one row per accumulated line. -/
def extract_tables_pdfplumber_df (pageTexts : List (Option (List Char))) :
    List (List Cell) :=
  (plumber_lines pageTexts).map (fun l => [Cell.str l])

/-- Python `str(i)` for an integer. -/
def intChars (i : Int) : List Char :=
  if i < 0 then '-' :: Nat.toDigits 10 (-i).toNat else Nat.toDigits 10 i.toNat

/-- The page argument handed to `camelot.read_pdf` (z10.py line 56): the raw
spec when it is (case-insensitively) `"all"`, otherwise the resolved indices
re-biased to 1-based and joined with commas; a `ValueError` from
`parse_page_numbers` propagates. -/
def camelot_page_string (pages : List Char) : Except (List Char) (List Char) :=
  if pyLower pages = "all".data then Except.ok pages
  else
    (parse_page_numbers pages 1000).map
      (fun l => List.intercalate [','] (l.map (fun p => intChars (p + 1))))

/-- `pd.concat(dfs, ignore_index=True) if dfs else pd.DataFrame()` over
`dfs = [table.df for table in tables if not table.df.empty]`
(`extract_tables_camelot`, z10.py lines 57-59).  A DataFrame is modelled by
its list of rows, `df.empty` by the absence of rows. -/
def concat_nonempty (tables : List (List (List Cell))) : List (List Cell) :=
  (tables.filter (fun df => !df.isEmpty)).flatten

/-- Errors that can abort `run_extraction` before the workbook is written:
the `ValueError` of `parse_page_numbers` (carrying the offending token) and
the `IndexError` of `pdf.pages[i]`. -/
inductive RunError where
  | parseError : List Char → RunError
  | indexError : RunError
deriving DecidableEq

/-- Python list indexing `l[i]`: negative indices count from the end;
`none` models the `IndexError`. -/
def pyIndex {α : Type} (l : List α) (i : Int) : Option α :=
  if 0 ≤ i then l[i.toNat]?
  else if -i ≤ (l.length : Int) then l[l.length - (-i).toNat]? else none

/-- Page selection of `extract_tables_pdfplumber` (z10.py line 46):
`pdf.pages if pages.lower() == 'all' else [pdf.pages[i] for i in
parse_page_numbers(pages, len(pdf.pages))]`, over the pages' extracted
texts. -/
def plumber_selected (pageTexts : List (Option (List Char))) (pages : List Char) :
    Except RunError (List (Option (List Char))) :=
  if pyLower pages = "all".data then Except.ok pageTexts
  else
    match parse_page_numbers pages (pageTexts.length : Int) with
    | Except.error tok => Except.error (RunError.parseError tok)
    | Except.ok idxs =>
      match idxs.mapM (fun i => pyIndex pageTexts i) with
      | some sel => Except.ok sel
      | none => Except.error RunError.indexError

/-- The sheet-writing conditionals of `run_extraction` (z10.py lines 105-111):
one `(sheet_name, df)` pair per non-empty cleaned DataFrame, in the fixed
order Camelot, PDFPlumber, Tabula. -/
def write_sheets (camelot_df plumber_df tabula_df : List (List Cell)) :
    List (List Char × List (List Cell)) :=
  (if camelot_df.isEmpty then [] else [("Camelot".data, camelot_df)]) ++
  (if plumber_df.isEmpty then [] else [("PDFPlumber".data, plumber_df)]) ++
  (if tabula_df.isEmpty then [] else [("Tabula".data, tabula_df)])

/-- The sheets `run_extraction` writes, as a function of the three raw engine
DataFrames (each cleaned by `clean_dataframe` before the emptiness tests,
z10.py lines 95-97 and 105-111). -/
def run_extraction_sheets (camelot_df plumber_df tabula_df : List (List Cell)) :
    List (List Char × List (List Cell)) :=
  write_sheets (clean_dataframe camelot_df) (clean_dataframe plumber_df)
    (clean_dataframe tabula_df)

/-- The extraction phase of `run_extraction` (z10.py lines 94-111) with the
two table backends as black boxes: `camelotTables` gives the per-table
DataFrames `camelot.read_pdf` returns for a page string, `pageTexts` the
per-page texts seen by pdfplumber, and `tabula_df` the final tabula
DataFrame (tabula receives the raw spec string and parses it itself).
Evaluation order follows the source: the camelot call (whose page string
resolution runs first) precedes the pdfplumber and tabula calls. -/
def run_extraction_model (camelotTables : List Char → List (List (List Cell)))
    (pageTexts : List (Option (List Char))) (tabula_df : List (List Cell))
    (pages : List Char) :
    Except RunError (List (List Char × List (List Cell))) := do
  let cp ← (camelot_page_string pages).mapError RunError.parseError
  let camelot_df := clean_dataframe (concat_nonempty (camelotTables cp))
  let sel ← plumber_selected pageTexts pages
  let plumber_df := clean_dataframe (extract_tables_pdfplumber_df sel)
  let tabula_clean := clean_dataframe tabula_df
  Except.ok (write_sheets camelot_df plumber_df tabula_clean)

/-- Python `str.rfind(c)` on a single character: index of the last occurrence,
`-1` if absent. -/
def rfindIdx (c : Char) : List Char → Int
  | [] => -1
  | x :: xs =>
    let r := rfindIdx c xs
    if 0 ≤ r then r + 1 else if x = c then 0 else -1

/-- `os.path.splitext` (generic algorithm, `/` separator): split at the last
dot if it lies after the last separator and at least one non-dot character
precedes it within the base name; otherwise the extension is empty.  The
paths this program builds come from the Tk file dialog, which uses forward
slashes on every platform. -/
def splitext (p : List Char) : List Char × List Char :=
  let sepIndex := rfindIdx '/' p
  let dotIndex := rfindIdx '.' p
  if sepIndex < dotIndex then
    if ((p.take dotIndex.toNat).drop (sepIndex + 1).toNat).any (fun c => c ≠ '.') then
      (p.take dotIndex.toNat, p.drop dotIndex.toNat)
    else (p, [])
  else (p, [])

/-- `os.path.basename` (POSIX flavor): everything after the last `/`. -/
def basename (p : List Char) : List Char :=
  (p.reverse.takeWhile (fun c => c ≠ '/')).reverse

/-- The candidate path probed with counter `k` by `ensure_unique_filename`:
`f"{base}_{counter}{ext}"` with `base, ext = os.path.splitext(filepath)`
computed from the original path. -/
def candidate_path (filepath : List Char) (k : Nat) : List Char :=
  (splitext filepath).1 ++ '_' :: Nat.toDigits 10 k ++ (splitext filepath).2

/-- The `while os.path.exists(filepath)` loop of `ensure_unique_filename`
(z10.py lines 76-78), with the filesystem abstracted to the `fileExists`
predicate.  The loop has no bound in the source; `fuel` makes the recursion
total, and `none` means the probe did not finish within `fuel` steps. -/
def ensure_unique_loop (fileExists : List Char → Bool) (base ext : List Char) :
    Nat → Nat → List Char → Option (List Char)
  | 0, _, _ => none
  | fuel + 1, counter, filepath =>
    if fileExists filepath then
      ensure_unique_loop fileExists base ext fuel (counter + 1)
        (base ++ '_' :: Nat.toDigits 10 counter ++ ext)
    else some filepath

/-- `ensure_unique_filename` (z10.py lines 73-79). -/
def ensure_unique_filename (fileExists : List Char → Bool) (filepath : List Char)
    (fuel : Nat) : Option (List Char) :=
  ensure_unique_loop fileExists (splitext filepath).1 (splitext filepath).2 fuel 1 filepath

/-- The candidate workbook filename built by `run_extraction` (z10.py lines
99-102): `f"{year}_{period}_{audit_status}_{client_name}_{base_name}` followed
by the fixed `_Combined_Extracted.xlsx` marker, with
`base_name = os.path.splitext(os.path.basename(pdf_path))[0]`.  The metadata
components are used exactly as received from `user_inputs`. -/
def run_extraction_filename
    (user_inputs : List Char × List Char × List Char × List Char)
    (pdf_path : List Char) : List Char :=
  user_inputs.1 ++ '_' :: user_inputs.2.1 ++ '_' :: user_inputs.2.2.1 ++
    '_' :: user_inputs.2.2.2 ++ '_' :: (splitext (basename pdf_path)).1 ++
    "_Combined_Extracted.xlsx".data

/-- The `user_inputs` tuple assembled by `start_extraction` (z10.py line 154):
the client name is upper-cased here, by the caller, before `run_extraction`
sees it. -/
def start_extraction_user_inputs (year period audit_status client_name : List Char) :
    List Char × List Char × List Char × List Char :=
  (year, period, audit_status, pyUpper client_name)

/-- End-to-end candidate filename: `start_extraction` builds `user_inputs`
and `run_extraction` formats the template. -/
def start_extraction_filename
    (year period audit_status client_name pdf_path : List Char) : List Char :=
  run_extraction_filename
    (start_extraction_user_inputs year period audit_status client_name) pdf_path

/-- The first comma-separated token on which `parse_page_numbers` raises,
if any. -/
def firstBadToken (tokens : List (List Char)) : Option (List Char) :=
  tokens.find? (fun part => (tokenContrib part).isNone)

/-- How many times the contribution of one token mentions the index `p`. -/
def tokenCount (part : List Char) (p : Int) : Nat :=
  match tokenContrib part with
  | some l => l.count p
  | none => 0

/-- The index set one token denotes, as worded by the specification: a plain
token is an integer `n` contributing `n-1`; a hyphenated token splits at the
hyphen into two integers `a`, `b` and contributes every index from `a-1`
through `b-1`. -/
def contributesIdx (part : List Char) (p : Int) : Prop :=
  (¬ part.contains '-' ∧ pyInt? part = some (p + 1)) ∨
  (part.contains '-' ∧ ∃ s e a b, part.splitOn '-' = [s, e] ∧
    pyInt? s = some a ∧ pyInt? e = some b ∧ a - 1 ≤ p ∧ p ≤ b - 1)

/-- A concrete two-file filesystem (`X.xlsx` and `X_1.xlsx` exist), the
scenario of the composer collision test. -/
def demoFileExists (s : List Char) : Bool :=
  (s == "X.xlsx".data) || (s == "X_1.xlsx".data)

/-- The language of the regex `^\(\s*[\d,.]+\s*\)$`, stated structurally:
an opening parenthesis, optional whitespace, a nonempty run of digits,
commas and periods, optional whitespace, a closing parenthesis. -/
def ParenRegexLang (s : List Char) : Prop :=
  ∃ ws1 run ws2, s = '(' :: (ws1 ++ run ++ ws2) ++ [')'] ∧
    (∀ c ∈ ws1, isPySpace c = true) ∧ run ≠ [] ∧
    (∀ c ∈ run, isNumRunChar c = true) ∧
    (∀ c ∈ ws2, isPySpace c = true)

example : parse_page_numbers ("1,2,5-7".data) 10 = Except.ok [0, 1, 4, 5, 6] := by decide
example : parse_page_numbers ("1-3".data) 2 = Except.ok [0, 1] := by decide
example : parse_page_numbers ("x".data) 5 = Except.error ("x".data) := by decide
example : parse_page_numbers ("0".data) 5 = Except.ok [-1] := by decide
example : parse_page_numbers ("1,1".data) 10 = Except.ok [0, 0] := by decide
example : clean_cell (Cell.str ("$1,234.56".data)) = Cell.str ("1,234.56".data) := by decide
example : clean_cell (Cell.str ("$ (1,234.56)".data)) = Cell.str ("-1234.56".data) := by decide
example : clean_cell (Cell.str ("N/A".data)) = Cell.str ("N/A".data) := by decide
example : clean_cell (Cell.str ("(\t1)".data)) = Cell.str ("-\t1".data) := by decide
example : clean_cell (Cell.str ("(1\t)".data)) = Cell.str ("-1\t".data) := by decide
example : clean_cell (Cell.str ("-1\t".data)) = Cell.str ("-1".data) := by decide
example : splitext ("X.xlsx".data) = ("X".data, ".xlsx".data) := by decide
example : splitext ("/a/b.c/.bashrc".data) = ("/a/b.c/.bashrc".data, ([] : List Char)) := by decide
example : basename ("C:/tmp/doc.pdf".data) = "doc.pdf".data := by decide
example :
    ensure_unique_filename
      (fun s => (s == "X.xlsx".data) || (s == "X_1.xlsx".data)) ("X.xlsx".data) 3 =
    some ("X_2.xlsx".data) := by decide
example :
    extract_tables_pdfplumber_df [some ("a\n\nb".data)] =
    [[Cell.str ("a".data)], [Cell.str []], [Cell.str ("b".data)]] := by decide
example :
    start_extraction_filename ("2024".data) ("Annual".data) ("Audited".data)
      ("aBc".data) ("C:/tmp/doc.pdf".data) =
    "2024_Annual_Audited_ABC_doc_Combined_Extracted.xlsx".data := by decide
example :
    run_extraction_model (fun _ => []) [] [] ("x".data) =
    Except.error (RunError.parseError ("x".data)) := by decide
example :
    (run_extraction_sheets [] [[Cell.str ('a' :: [])]] [[Cell.str ('b' :: [])]]).map
      Prod.fst = ["PDFPlumber".data, "Tabula".data] := by decide
example : camelot_page_string ("2,5-7".data) = Except.ok ("2,5,6,7".data) := by decide
example : camelot_page_string ("AlL".data) = Except.ok ("AlL".data) := by decide

/-! ### Helper lemmas: stripping -/

theorem rstripP_eq_nil_of_all {p : Char → Bool} {w : List Char}
    (h : ∀ c ∈ w, p c = true) : rstripP p w = [] := by
  induction w with
  | nil => rfl
  | cons x xs ih =>
    have hx : p x = true := h x (by simp)
    have hxs : rstripP p xs = [] := ih (fun c hc => h c (by simp [hc]))
    simp [rstripP, hxs, hx]

theorem rstripP_append_of_all {p : Char → Bool} {w : List Char} (l : List Char)
    (h : ∀ c ∈ w, p c = true) : rstripP p (l ++ w) = rstripP p l := by
  induction l with
  | nil => simpa using rstripP_eq_nil_of_all h
  | cons x xs ih => simp [rstripP, ih]

theorem rstripP_eq_self_of_all_not {p : Char → Bool} {l : List Char}
    (h : ∀ c ∈ l, p c = false) : rstripP p l = l := by
  induction l with
  | nil => rfl
  | cons x xs ih =>
    have hx : p x = false := h x (by simp)
    have hxs : rstripP p xs = xs := ih (fun c hc => h c (by simp [hc]))
    simp [rstripP, hxs, hx]

theorem rstripP_decomp (p : Char → Bool) (l : List Char) :
    ∃ w, (∀ c ∈ w, p c = true) ∧ l = rstripP p l ++ w := by
  induction l with
  | nil => exact ⟨[], by simp, rfl⟩
  | cons x xs ih =>
    obtain ⟨w, hw, hxs⟩ := ih
    by_cases hcond : (rstripP p xs).isEmpty && p x
    · refine ⟨x :: w, ?_, ?_⟩
      · intro c hc
        rcases List.mem_cons.mp hc with rfl | hc
        · exact (Bool.and_eq_true _ _ ▸ hcond).2
        · exact hw c hc
      · have hnil : rstripP p xs = [] := by
          have := (Bool.and_eq_true _ _ ▸ hcond).1
          simpa [List.isEmpty_iff] using this
        have hr : rstripP p (x :: xs) = [] := by simp [rstripP, hcond]
        rw [hnil, List.nil_append] at hxs
        rw [hr, List.nil_append, ← hxs]
    · refine ⟨w, hw, ?_⟩
      have : rstripP p (x :: xs) = x :: rstripP p xs := by
        simp only [rstripP]
        rw [if_neg (by simpa using hcond)]
      rw [this]
      simpa using hxs

theorem rstripP_sublist (p : Char → Bool) (l : List Char) :
    (rstripP p l).Sublist l := by
  induction l with
  | nil => simp [rstripP]
  | cons x xs ih =>
    by_cases hcond : (rstripP p xs).isEmpty && p x
    · simp [rstripP, hcond]
    · simp only [rstripP]
      rw [if_neg (by simpa using hcond)]
      exact List.Sublist.cons₂ x ih

theorem rstripP_idem (p : Char → Bool) (l : List Char) :
    rstripP p (rstripP p l) = rstripP p l := by
  induction l with
  | nil => rfl
  | cons x xs ih =>
    by_cases hcond : (rstripP p xs).isEmpty && p x
    · simp [rstripP, hcond]
    · have hstep : rstripP p (x :: xs) = x :: rstripP p xs := by
        simp only [rstripP]
        rw [if_neg (by simpa using hcond)]
      rw [hstep]
      simp only [rstripP, ih]
      rw [if_neg (by simpa using hcond)]

theorem dropWhile_append_of_all {p : Char → Bool} {w : List Char} (t : List Char)
    (h : ∀ c ∈ w, p c = true) : List.dropWhile p (w ++ t) = List.dropWhile p t := by
  induction w with
  | nil => rfl
  | cons x xs ih =>
    have hx : p x = true := h x (by simp)
    simp only [List.cons_append, List.dropWhile_cons, hx, if_true]
    exact ih (fun c hc => h c (by simp [hc]))

theorem dropWhile_head_false {p : Char → Bool} {l : List Char} {x : Char}
    {xs : List Char} (h : List.dropWhile p l = x :: xs) : p x = false := by
  induction l with
  | nil => simp at h
  | cons y ys ih =>
    by_cases hy : p y = true
    · exact ih (by simpa [List.dropWhile_cons, hy] using h)
    · rw [List.dropWhile_cons, if_neg (by simpa using hy)] at h
      cases h
      simpa using hy

theorem dropWhile_fix_of_head {p : Char → Bool} {x : Char} {xs : List Char}
    (h : p x = false) : List.dropWhile p (x :: xs) = x :: xs := by
  simp [List.dropWhile_cons, h]

theorem dropWhile_idem (p : Char → Bool) (l : List Char) :
    List.dropWhile p (List.dropWhile p l) = List.dropWhile p l := by
  cases hdw : List.dropWhile p l with
  | nil => rfl
  | cons x xs => exact dropWhile_fix_of_head (dropWhile_head_false hdw)

theorem dropWhile_rstripP_fix {p : Char → Bool} {u : List Char}
    (h : List.dropWhile p u = u) : List.dropWhile p (rstripP p u) = rstripP p u := by
  cases u with
  | nil => rfl
  | cons x xs =>
    have hx : p x = false := dropWhile_head_false h
    by_cases hcond : (rstripP p xs).isEmpty && p x
    · simp [rstripP, hcond]
    · have hstep : rstripP p (x :: xs) = x :: rstripP p xs := by
        simp only [rstripP]
        rw [if_neg (by simpa using hcond)]
      rw [hstep]
      exact dropWhile_fix_of_head hx

theorem stripP_idem (p : Char → Bool) (s : List Char) :
    stripP p (stripP p s) = stripP p s := by
  unfold stripP
  rw [dropWhile_rstripP_fix (dropWhile_idem p s), rstripP_idem]

theorem stripP_sublist (p : Char → Bool) (s : List Char) :
    (stripP p s).Sublist s := by
  unfold stripP
  exact (rstripP_sublist p _).trans (List.dropWhile_sublist _)

theorem stripP_mem {p : Char → Bool} {s : List Char} {c : Char}
    (h : c ∈ stripP p s) : c ∈ s :=
  (stripP_sublist p s).mem h

/-! ### Helper lemmas: the accounting-negative regex -/

theorem numRun_not_space {c : Char} (h : isNumRunChar c = true) :
    isPySpace c = false := by
  simp only [isNumRunChar, Bool.or_eq_true, decide_eq_true_eq] at h
  rcases h with (h | h) | h
  · simp only [isPySpace, Bool.or_eq_false_iff, decide_eq_false_iff_not]
    refine ⟨⟨⟨⟨⟨?_, ?_⟩, ?_⟩, ?_⟩, ?_⟩, ?_⟩ <;> (rintro rfl; revert h; decide)
  · subst h; decide
  · subst h; decide

theorem parenCoreCheck_iff (mid : List Char) :
    parenCoreCheck mid = true ↔
      ∃ ws1 run ws2, mid = ws1 ++ run ++ ws2 ∧
        (∀ c ∈ ws1, isPySpace c = true) ∧ run ≠ [] ∧
        (∀ c ∈ run, isNumRunChar c = true) ∧
        (∀ c ∈ ws2, isPySpace c = true) := by
  constructor
  · intro h
    simp only [parenCoreCheck, Bool.and_eq_true, Bool.not_eq_true',
      List.isEmpty_eq_false, List.all_eq_true] at h
    obtain ⟨hne, hall⟩ := h
    obtain ⟨w, hw, hu⟩ := rstripP_decomp isPySpace (mid.dropWhile isPySpace)
    refine ⟨mid.takeWhile isPySpace, stripP isPySpace mid, w, ?_, ?_, hne, hall, hw⟩
    · show mid = mid.takeWhile isPySpace ++ rstripP isPySpace (mid.dropWhile isPySpace) ++ w
      rw [List.append_assoc, ← hu, List.takeWhile_append_dropWhile]
    · intro c hc
      exact List.mem_takeWhile_imp hc
  · rintro ⟨ws1, run, ws2, rfl, h1, h2, h3, h4⟩
    have hrun_nospace : ∀ c ∈ run, isPySpace c = false :=
      fun c hc => numRun_not_space (h3 c hc)
    have hcore : stripP isPySpace (ws1 ++ run ++ ws2) = run := by
      unfold stripP
      rw [List.append_assoc, dropWhile_append_of_all _ h1]
      cases run with
      | nil => exact absurd rfl h2
      | cons r rs =>
        rw [List.cons_append, dropWhile_fix_of_head (hrun_nospace r (by simp)),
          ← List.cons_append, rstripP_append_of_all _ h4]
        exact rstripP_eq_self_of_all_not hrun_nospace
    simp only [parenCoreCheck, hcore, Bool.and_eq_true, Bool.not_eq_true',
      List.isEmpty_eq_false, List.all_eq_true]
    exact ⟨h2, h3⟩

theorem parenNumMatch_iff (s : List Char) :
    parenNumMatch s = true ↔ ParenRegexLang s := by
  constructor
  · intro h
    simp only [parenNumMatch, Bool.and_eq_true, beq_iff_eq] at h
    obtain ⟨⟨hhead, hlast⟩, hcore⟩ := h
    obtain ⟨t, ht⟩ := List.getLast?_eq_some_iff.mp hlast
    cases s with
    | nil => simp at hhead
    | cons c rest =>
      have hc : c = '(' := by simpa using hhead
      subst hc
      cases t with
      | nil =>
        have : ('(' : Char) = ')' := by simpa using congrArg List.head? ht
        cases this
      | cons c' mid =>
        have hc' : c' = '(' := by
          have := congrArg List.head? ht
          simpa using this.symm
        subst hc'
        have hrest : rest = mid ++ [')'] := by
          have := congrArg List.tail ht
          simpa using this
        subst hrest
        rw [show (('(' :: (mid ++ [')'])).drop 1).dropLast = mid by
          simp [List.dropLast_concat]] at hcore
        obtain ⟨ws1, run, ws2, hdecomp, h1, h2, h3, h4⟩ :=
          (parenCoreCheck_iff mid).mp hcore
        exact ⟨ws1, run, ws2, by rw [List.cons_append, hdecomp], h1, h2, h3, h4⟩
  · rintro ⟨ws1, run, ws2, rfl, h1, h2, h3, h4⟩
    simp only [parenNumMatch, Bool.and_eq_true, beq_iff_eq]
    refine ⟨⟨?_, ?_⟩, ?_⟩
    · rw [List.cons_append]
      simp
    · exact List.getLast?_concat _
    · have hmid : ((('(' :: (ws1 ++ run ++ ws2)) ++ [')']).drop 1).dropLast =
          ws1 ++ run ++ ws2 := by
        rw [List.cons_append]
        simp [List.dropLast_concat]
      rw [hmid]
      exact (parenCoreCheck_iff _).mpr ⟨ws1, run, ws2, rfl, h1, h2, h3, h4⟩

/-! ### Helper lemmas: clean_cell -/

theorem parenNumMatch_cons_dash (y : List Char) :
    parenNumMatch ('-' :: y) = false := by
  have hh : ((('-' :: y).head? == some '(')) = false := rfl
  simp [parenNumMatch, hh]

theorem noDollar_filter (s : List Char) :
    ∀ c ∈ s.filter (fun c => c ≠ '$'), c ≠ '$' := by
  intro c hc
  have := (List.mem_filter.mp hc).2
  simpa using this

theorem filter_eq_self_of_noDollar {l : List Char} (h : ∀ c ∈ l, c ≠ '$') :
    l.filter (fun c => c ≠ '$') = l := by
  rw [List.filter_eq_self]
  intro a ha
  simpa using h a ha

theorem pyStrip_cons_dash (y : List Char) :
    pyStrip ('-' :: y) = '-' :: rstripP isPySpace y := by
  unfold pyStrip stripP
  rw [dropWhile_fix_of_head (show isPySpace '-' = false by decide)]
  simp only [rstripP]
  rw [if_neg (by simp [show isPySpace '-' = false by decide])]

theorem clean_cell_cons_dash {y : List Char} (hnd : ∀ c ∈ y, c ≠ '$') :
    clean_cell (Cell.str ('-' :: y)) = Cell.str ('-' :: rstripP isPySpace y) := by
  have hfilter : ('-' :: y).filter (fun c => c ≠ '$') = '-' :: y := by
    apply filter_eq_self_of_noDollar
    intro c hc
    rcases List.mem_cons.mp hc with rfl | hc
    · decide
    · exact hnd c hc
  simp only [clean_cell, hfilter, pyStrip_cons_dash, parenNumMatch_cons_dash,
    if_false, Bool.false_eq_true]

theorem clean_cell_involutive_from_second (cell : Cell) :
    clean_cell (clean_cell (clean_cell cell)) = clean_cell (clean_cell cell) := by
  cases cell with
  | other k => rfl
  | str s =>
    have hnd1 : ∀ c ∈ pyStrip (s.filter (fun c => c ≠ '$')), c ≠ '$' :=
      fun c hc => noDollar_filter s c (stripP_mem hc)
    by_cases hm : parenNumMatch (pyStrip (s.filter (fun c => c ≠ '$'))) = true
    · have h1 : clean_cell (Cell.str s) =
          Cell.str ('-' :: (pyStripSet ['(', ')', ' ']
            (pyStrip (s.filter (fun c => c ≠ '$')))).filter (fun c => c ≠ ',')) := by
        simp only [clean_cell, hm, if_true]
      set x := (pyStripSet ['(', ')', ' ']
        (pyStrip (s.filter (fun c => c ≠ '$')))).filter (fun c => c ≠ ',') with hx
      have hndx : ∀ c ∈ x, c ≠ '$' := by
        intro c hc
        rw [hx] at hc
        exact hnd1 c (stripP_mem (List.mem_filter.mp hc).1)
      have h2 : clean_cell (Cell.str ('-' :: x)) =
          Cell.str ('-' :: rstripP isPySpace x) := clean_cell_cons_dash hndx
      have hndrx : ∀ c ∈ rstripP isPySpace x, c ≠ '$' :=
        fun c hc => hndx c ((rstripP_sublist isPySpace x).mem hc)
      have h3 : clean_cell (Cell.str ('-' :: rstripP isPySpace x)) =
          Cell.str ('-' :: rstripP isPySpace (rstripP isPySpace x)) :=
        clean_cell_cons_dash hndrx
      rw [h1, h2, h3, rstripP_idem]
    · have h1 : clean_cell (Cell.str s) =
          Cell.str (pyStrip (s.filter (fun c => c ≠ '$'))) := by
        simp only [clean_cell]
        rw [if_neg hm]
      set s1 := pyStrip (s.filter (fun c => c ≠ '$')) with hs1
      have hfix : clean_cell (Cell.str s1) = Cell.str s1 := by
        have hf : s1.filter (fun c => c ≠ '$') = s1 :=
          filter_eq_self_of_noDollar hnd1
        have hstrip : pyStrip s1 = s1 := by
          rw [hs1]
          exact stripP_idem isPySpace _
        simp only [clean_cell, hf, hstrip]
        rw [if_neg hm]
      rw [h1, hfix, hfix]

/-! ### Helper lemmas: page-spec parsing -/

theorem mem_pyRange {a b p : Int} : p ∈ pyRange a b ↔ a ≤ p ∧ p < b := by
  unfold pyRange
  rw [List.mem_map]
  constructor
  · rintro ⟨i, hi, rfl⟩
    have := List.mem_range.mp hi
    omega
  · intro ⟨h1, h2⟩
    exact ⟨(p - a).toNat, List.mem_range.mpr (by omega), by omega⟩

theorem tokenContrib_mem {part : List Char} {c : List Int} {p : Int}
    (h : tokenContrib part = some c) : (p ∈ c ↔ contributesIdx part p) := by
  by_cases hcont : part.contains '-'
  · rw [tokenContrib, if_pos hcont] at h
    cases hsp : part.splitOn '-' with
    | nil => rw [hsp] at h; cases h
    | cons a tail =>
      cases tail with
      | nil => rw [hsp] at h; cases h
      | cons b tail2 =>
        cases tail2 with
        | cons d tail3 => rw [hsp] at h; cases h
        | nil =>
          rw [hsp] at h
          have h' : (match pyInt? a, pyInt? b with
              | some start, some stop => some (pyRange (start - 1) stop)
              | _, _ => none) = some c := h
          clear h
          cases hA : pyInt? a with
          | none => rw [hA] at h'; cases h'
          | some start =>
            cases hB : pyInt? b with
            | none => rw [hA, hB] at h'; cases h'
            | some stop =>
              rw [hA, hB] at h'
              injection h' with h'
              subst h'
              constructor
              · intro hp
                obtain ⟨h1, h2⟩ := mem_pyRange.mp hp
                exact Or.inr ⟨hcont, a, b, start, stop, hsp, hA, hB, h1, by omega⟩
              · rintro (⟨hnc, _⟩ | ⟨_, s, e, a', b', hsp', hA', hB', h1, h2⟩)
                · exact absurd hcont hnc
                · rw [hsp] at hsp'
                  injection hsp' with hsa hrest
                  injection hrest with hsb
                  subst hsa; subst hsb
                  rw [hA] at hA'; rw [hB] at hB'
                  injection hA' with hA'; injection hB' with hB'
                  subst hA'; subst hB'
                  exact mem_pyRange.mpr ⟨h1, by omega⟩
  · rw [tokenContrib, if_neg hcont] at h
    cases hN : pyInt? part with
    | none => rw [hN] at h; cases h
    | some n =>
      rw [hN] at h
      injection h with h
      subst h
      constructor
      · intro hp
        have hp' : p = n - 1 := by simpa using hp
        refine Or.inl ⟨hcont, ?_⟩
        rw [hN]
        congr 1
        omega
      · rintro (⟨_, hint⟩ | ⟨hc, _⟩)
        · rw [hN] at hint
          injection hint with hint
          simp
          omega
        · exact absurd hc hcont

theorem parsePartsAcc_ok_mem {parts : List (List Char)} {l : List Int}
    (h : parsePartsAcc parts = Except.ok l) (p : Int) :
    p ∈ l ↔ ∃ part ∈ parts, ∃ c, tokenContrib part = some c ∧ p ∈ c := by
  induction parts generalizing l with
  | nil =>
    injection h with h
    subst h
    simp
  | cons part rest ih =>
    rw [parsePartsAcc] at h
    cases hc : tokenContrib part with
    | none => rw [hc] at h; cases h
    | some cl =>
      rw [hc] at h
      cases hacc : parsePartsAcc rest with
      | error e => rw [hacc] at h; cases h
      | ok lr =>
        rw [hacc] at h
        injection h with h
        subst h
        constructor
        · intro hp
          rcases List.mem_append.mp hp with hp | hp
          · exact ⟨part, by simp, cl, hc, hp⟩
          · obtain ⟨part', hmem, c', hc', hp'⟩ := (ih hacc).mp hp
            exact ⟨part', by simp [hmem], c', hc', hp'⟩
        · rintro ⟨part', hmem, c', hc', hp'⟩
          rcases List.mem_cons.mp hmem with rfl | hmem
          · rw [hc] at hc'
            injection hc' with hc'
            subst hc'
            exact List.mem_append.mpr (Or.inl hp')
          · exact List.mem_append.mpr (Or.inr ((ih hacc).mpr ⟨part', hmem, c', hc', hp'⟩))

theorem count_filter_lt (l : List Int) (m p : Int) :
    (l.filter (fun x => x < m)).count p = if p < m then l.count p else 0 := by
  induction l with
  | nil => simp
  | cons x xs ih =>
    by_cases hx : x < m
    · rw [List.filter_cons_of_pos (by simpa using hx), List.count_cons, ih,
        List.count_cons]
      by_cases hpm : p < m
      · simp [hpm]
      · have hxp : (x == p) = false := by
          simp only [beq_eq_false_iff_ne, ne_eq]
          intro hh
          subst hh
          exact hpm hx
        simp [hpm, hxp]
    · rw [List.filter_cons_of_neg (by simpa using hx), ih, List.count_cons]
      by_cases hpm : p < m
      · have hxp : (x == p) = false := by
          simp only [beq_eq_false_iff_ne, ne_eq]
          intro hh
          subst hh
          exact hx hpm
        simp [hpm, hxp]
      · simp [hpm]

theorem parsePartsAcc_ok_count {parts : List (List Char)} {l : List Int}
    (h : parsePartsAcc parts = Except.ok l) (p : Int) :
    l.count p = (parts.map (fun part => tokenCount part p)).sum := by
  induction parts generalizing l with
  | nil =>
    injection h with h
    subst h
    simp
  | cons part rest ih =>
    rw [parsePartsAcc] at h
    cases hc : tokenContrib part with
    | none => rw [hc] at h; cases h
    | some cl =>
      rw [hc] at h
      cases hacc : parsePartsAcc rest with
      | error e => rw [hacc] at h; cases h
      | ok lr =>
        rw [hacc] at h
        injection h with h
        subst h
        rw [List.count_append, ih hacc, List.map_cons, List.sum_cons]
        congr 1
        rw [tokenCount, hc]

theorem parsePartsAcc_error_of_find {parts : List (List Char)} {tok : List Char}
    (h : firstBadToken parts = some tok) : parsePartsAcc parts = Except.error tok := by
  induction parts with
  | nil => cases h
  | cons part rest ih =>
    rw [firstBadToken, List.find?_cons] at h
    cases hc : tokenContrib part with
    | none =>
      rw [hc] at h
      simp only [Option.isNone_none] at h
      injection h with h
      subst h
      rw [parsePartsAcc, hc]
    | some cl =>
      rw [hc] at h
      simp only [Option.isNone_some] at h
      rw [parsePartsAcc, hc, ih h]
      rfl

/-! ### Helper lemmas: collision probe, plumber rows, pipeline errors -/

theorem ensure_unique_loop_spec (fileExists : List Char → Bool) (base ext : List Char) :
    ∀ (fuel counter : Nat) (current r : List Char),
      ensure_unique_loop fileExists base ext fuel counter current = some r →
      fileExists r = false ∧
      (fileExists current = false → r = current) ∧
      (fileExists current = true →
        ∃ k, counter ≤ k ∧ r = base ++ '_' :: Nat.toDigits 10 k ++ ext ∧
          ∀ j, counter ≤ j → j < k →
            fileExists (base ++ '_' :: Nat.toDigits 10 j ++ ext) = true) := by
  intro fuel
  induction fuel with
  | zero => intro counter current r h; cases h
  | succ fuel ih =>
    intro counter current r h
    rw [ensure_unique_loop] at h
    by_cases hex : fileExists current = true
    · rw [if_pos hex] at h
      obtain ⟨h1, h2, h3⟩ := ih (counter + 1) _ r h
      refine ⟨h1, ?_, ?_⟩
      · intro hff
        rw [hff] at hex
        cases hex
      · intro _
        by_cases hcand :
            fileExists (base ++ '_' :: Nat.toDigits 10 counter ++ ext) = true
        · obtain ⟨k, hk1, hk2, hk3⟩ := h3 hcand
          refine ⟨k, by omega, hk2, ?_⟩
          intro j hj1 hj2
          rcases Nat.eq_or_lt_of_le hj1 with rfl | hj
          · exact hcand
          · exact hk3 j hj hj2
        · have hr : r = base ++ '_' :: Nat.toDigits 10 counter ++ ext :=
            h2 (by simpa using hcand)
          exact ⟨counter, le_refl _, hr, fun j hj1 hj2 => absurd hj2 (Nat.not_lt.mpr hj1)⟩
    · rw [if_neg hex] at h
      injection h with h
      subst h
      refine ⟨by simpa using hex, fun _ => rfl, ?_⟩
      intro hcur
      rw [hcur] at hex
      exact absurd rfl hex

theorem plumber_lines_eq (pageTexts : List (Option (List Char))) :
    plumber_lines pageTexts =
      (((pageTexts.filterMap id).filter (fun s => !s.isEmpty)).map
        (fun s => s.splitOn '\n')).flatten := by
  suffices h : ∀ (acc : List (List Char)),
      pageTexts.foldl
        (fun acc t =>
          match t with
          | some s => if s.isEmpty then acc else acc ++ s.splitOn '\n'
          | none => acc)
        acc =
      acc ++ (((pageTexts.filterMap id).filter (fun s => !s.isEmpty)).map
        (fun s => s.splitOn '\n')).flatten by
    have h0 := h []
    rw [List.nil_append] at h0
    exact h0
  induction pageTexts with
  | nil => intro acc; simp
  | cons t ts ih =>
    intro acc
    cases t with
    | none =>
      rw [show List.filterMap id (none :: ts) = List.filterMap id ts from by simp]
      exact ih acc
    | some s =>
      by_cases hs : s.isEmpty = true
      · have hs0 : s = [] := List.isEmpty_iff.mp hs
        subst hs0
        rw [show List.filterMap id (some ([] : List Char) :: ts) =
            ([] : List Char) :: List.filterMap id ts from by simp]
        rw [show List.filter (fun s => !s.isEmpty)
              (([] : List Char) :: List.filterMap id ts) =
            List.filter (fun s => !s.isEmpty) (List.filterMap id ts) from by simp]
        exact ih acc
      · have hs' : s.isEmpty = false := by
          cases hb : s.isEmpty
          · rfl
          · exact absurd hb hs
        rw [show List.filterMap id (some s :: ts) = s :: List.filterMap id ts from by simp]
        rw [List.filter_cons_of_pos (by simp [hs'])]
        rw [List.map_cons, List.flatten_cons]
        simp only [List.foldl_cons, hs']
        rw [if_neg (show ¬(false = true) by simp)]
        have hstep := ih (acc ++ s.splitOn '\n')
        rw [List.append_assoc] at hstep
        exact hstep

theorem plumber_lines_mem (pageTexts : List (Option (List Char))) (line : List Char) :
    line ∈ plumber_lines pageTexts ↔
      ∃ s, some s ∈ pageTexts ∧ s ≠ [] ∧ line ∈ s.splitOn '\n' := by
  rw [plumber_lines_eq]
  simp only [List.mem_flatten, List.mem_map, List.mem_filter, List.mem_filterMap,
    id_eq, Bool.not_eq_true', List.isEmpty_eq_false]
  constructor
  · rintro ⟨l, ⟨s, ⟨⟨a, ha, rfl⟩, hne⟩, rfl⟩, hline⟩
    exact ⟨s, ha, hne, hline⟩
  · rintro ⟨s, hs, hne, hline⟩
    exact ⟨s.splitOn '\n', ⟨s, ⟨⟨some s, hs, rfl⟩, hne⟩, rfl⟩, hline⟩

theorem parse_page_numbers_error_of_find {pages tok : List Char} (maxp : Int)
    (h : firstBadToken (pages.splitOn ',') = some tok) :
    parse_page_numbers pages maxp = Except.error tok := by
  rw [parse_page_numbers, parsePartsAcc_error_of_find h]
  rfl

theorem run_extraction_model_error {pages tok : List Char}
    (hall : ¬ pyLower pages = "all".data)
    (hbad : firstBadToken (pages.splitOn ',') = some tok)
    (camelotTables : List Char → List (List (List Cell)))
    (pageTexts : List (Option (List Char))) (tabula_df : List (List Cell)) :
    run_extraction_model camelotTables pageTexts tabula_df pages =
      Except.error (RunError.parseError tok) := by
  have hcp : camelot_page_string pages = Except.error tok := by
    rw [camelot_page_string, if_neg hall, parse_page_numbers_error_of_find 1000 hbad]
    rfl
  rw [run_extraction_model, hcp]
  rfl

/-! ### Helper lemmas: assembling the claim statements -/

theorem contributesIdx_some {part : List Char} {p : Int} (h : contributesIdx part p) :
    ∃ c, tokenContrib part = some c ∧ p ∈ c := by
  rcases h with ⟨hnc, hint⟩ | ⟨hc, s, e, a, b, hsp, hA, hB, h1, h2⟩
  · refine ⟨[p + 1 - 1], ?_, ?_⟩
    · rw [tokenContrib, if_neg hnc, hint]
      rfl
    · rw [List.mem_singleton]
      omega
  · refine ⟨pyRange (a - 1) b, ?_, mem_pyRange.mpr ⟨h1, by omega⟩⟩
    rw [tokenContrib, if_pos hc, hsp]
    show (match pyInt? s, pyInt? e with
      | some start, some stop => some (pyRange (start - 1) stop)
      | _, _ => none) = some (pyRange (a - 1) b)
    rw [hA, hB]

theorem parse_page_numbers_mem {pages : List Char} {pageCount : Int} {res : List Int}
    (h : parse_page_numbers pages pageCount = Except.ok res) (p : Int) :
    p ∈ res ↔ p < pageCount ∧ ∃ part ∈ pages.splitOn ',', contributesIdx part p := by
  rw [parse_page_numbers] at h
  cases hacc : parsePartsAcc (pages.splitOn ',') with
  | error e => rw [hacc] at h; cases h
  | ok l =>
    rw [hacc] at h
    injection h with h
    subst h
    rw [List.mem_filter]
    constructor
    · rintro ⟨hp, hlt⟩
      refine ⟨by simpa using hlt, ?_⟩
      obtain ⟨part, hmem, c, hc, hpc⟩ := (parsePartsAcc_ok_mem hacc p).mp hp
      exact ⟨part, hmem, (tokenContrib_mem hc).mp hpc⟩
    · rintro ⟨hlt, part, hmem, hcontrib⟩
      obtain ⟨c, hc, hpc⟩ := contributesIdx_some hcontrib
      exact ⟨(parsePartsAcc_ok_mem hacc p).mpr ⟨part, hmem, c, hc, hpc⟩, by simpa using hlt⟩

theorem parse_page_numbers_ok_filter {pages : List Char} {pageCount : Int}
    {res : List Int} (h : parse_page_numbers pages pageCount = Except.ok res) :
    ∀ p ∈ res, p < pageCount := by
  rw [parse_page_numbers] at h
  cases hacc : parsePartsAcc (pages.splitOn ',') with
  | error e => rw [hacc] at h; cases h
  | ok l =>
    rw [hacc] at h
    injection h with h
    subst h
    intro p hp
    have := (List.mem_filter.mp hp).2
    simpa using this

theorem parse_page_numbers_count_of_ok {pages : List Char} {pageCount : Int}
    {res : List Int} (h : parse_page_numbers pages pageCount = Except.ok res) (p : Int) :
    res.count p = if p < pageCount then
      ((pages.splitOn ',').map (fun part => tokenCount part p)).sum else 0 := by
  rw [parse_page_numbers] at h
  cases hacc : parsePartsAcc (pages.splitOn ',') with
  | error e => rw [hacc] at h; cases h
  | ok l =>
    rw [hacc] at h
    injection h with h
    subst h
    rw [count_filter_lt, parsePartsAcc_ok_count hacc]

theorem clean_dataframe_isEmpty (df : List (List Cell)) :
    (clean_dataframe df).isEmpty = df.isEmpty := by
  cases df <;> rfl

/-! ### Claim theorems -/

/-- C1: for every page-spec string that is a comma-separated list of valid
tokens and every pageCount, `parse_page_numbers` returns exactly the indices
`n-1` for each single-integer token `n` plus the indices `a-1` through `b-1`
for each hyphenated token `a-b`, restricted to indices below `pageCount`; in
particular `resolve("1,2,5-7", 10)` yields exactly `{0,1,4,5,6}`. -/
theorem C1_parse_page_numbers_resolves_tokens :
    (∀ (pages : List Char) (pageCount : Int) (res : List Int),
        parse_page_numbers pages pageCount = Except.ok res →
        ∀ p : Int, p ∈ res ↔
          p < pageCount ∧ ∃ part ∈ pages.splitOn ',', contributesIdx part p) ∧
    parse_page_numbers ("1,2,5-7".data) 10 = Except.ok [0, 1, 4, 5, 6] :=
  ⟨fun _ _ _ h p => parse_page_numbers_mem h p, by decide⟩

/-- Witness for C1: at `"1,2,5-7"` with pageCount 10, index 4 is in the
result because the token `5-7` contributes it. -/
theorem C1_parse_page_numbers_resolves_tokens_witness :
    (4 : Int) ∈ [(0 : Int), 1, 4, 5, 6] ↔
      (4 : Int) < 10 ∧ ∃ part ∈ ("1,2,5-7".data).splitOn ',', contributesIdx part 4 :=
  C1_parse_page_numbers_resolves_tokens.1 ("1,2,5-7".data) 10 [0, 1, 4, 5, 6]
    (by decide) 4

/-- C3 counterexample: the claim says no negative index is ever returned, but
the token `0` yields index `-1`, which the `p < max_pages` filter keeps. -/
theorem C3_parse_page_numbers_negative_index :
    parse_page_numbers ("0".data) 5 = Except.ok [-1] ∧ ¬ (0 : Int) ≤ -1 :=
  ⟨by decide, by decide⟩

/-- C3 (amended): every index in an `Except.ok` result of
`parse_page_numbers` is strictly below `pageCount` — indices at or above
`pageCount` are silently dropped without error — and
`resolve("1-3", 2) = [0, 1]`; no lower bound holds (tokens `≤ 0` produce
negative indices). -/
theorem C3_parse_page_numbers_upper_bound_only :
    (∀ (pages : List Char) (pageCount : Int) (res : List Int),
        parse_page_numbers pages pageCount = Except.ok res →
        ∀ p ∈ res, p < pageCount) ∧
    parse_page_numbers ("1-3".data) 2 = Except.ok [0, 1] :=
  ⟨fun _ _ _ h => parse_page_numbers_ok_filter h, by decide⟩

/-- Witness for C3: the bound holds at `"1-3"`, pageCount 2, index 0. -/
theorem C3_parse_page_numbers_upper_bound_only_witness : (0 : Int) < 2 :=
  C3_parse_page_numbers_upper_bound_only.1 ("1-3".data) 2 [0, 1] (by decide) 0
    (by decide)

/-- C7 counterexample: the claim says the result is a set in which no index
appears more than once, but `resolve("1,1", 10)` is the list `[0, 0]`, with
index 0 occurring twice. -/
theorem C7_parse_page_numbers_duplicate_indices :
    parse_page_numbers ("1,1".data) 10 = Except.ok [0, 0] ∧
      List.count (0 : Int) [(0 : Int), 0] = 2 :=
  ⟨by decide, by decide⟩

/-- C7 (amended): `parse_page_numbers` returns a list, not a set: each index
occurs once per contributing token, so the multiplicity of `p` in an
`Except.ok` result is the sum over tokens of the multiplicity of `p` in that
token's contribution (and 0 when `p ≥ pageCount`); overlapping tokens as in
`"1-3,2"` therefore leave duplicates. -/
theorem C7_parse_page_numbers_multiplicity :
    (∀ (pages : List Char) (pageCount : Int) (res : List Int) (p : Int),
        parse_page_numbers pages pageCount = Except.ok res →
        res.count p = if p < pageCount then
          ((pages.splitOn ',').map (fun part => tokenCount part p)).sum else 0) ∧
    parse_page_numbers ("1-3,2".data) 10 = Except.ok [0, 1, 2, 1] :=
  ⟨fun _ _ _ p h => parse_page_numbers_count_of_ok h p, by decide⟩

/-- Witness for C7: the multiplicity formula evaluated at `"1,1"`,
pageCount 10, index 0. -/
theorem C7_parse_page_numbers_multiplicity_witness :
    List.count (0 : Int) [(0 : Int), 0] = if (0 : Int) < 10 then
      ((("1,1".data).splitOn ',').map (fun part => tokenCount part 0)).sum else 0 :=
  C7_parse_page_numbers_multiplicity.1 ("1,1".data) 10 [0, 0] 0 (by decide)

/-- C8: a page spec (other than "all") containing a token that is neither a
valid integer nor a valid integer-hyphen-integer pair makes the run fail with
the parse error carrying the offending token, whatever the extraction
backends would have returned — the error surfaces before any backend output
is consulted; in particular `resolve("x", 5)` is that error. -/
theorem C8_parse_error_before_extraction :
    (∀ (pages tok : List Char), ¬ pyLower pages = "all".data →
        firstBadToken (pages.splitOn ',') = some tok →
        ∀ (camelotTables : List Char → List (List (List Cell)))
          (pageTexts : List (Option (List Char))) (tabula_df : List (List Cell)),
          run_extraction_model camelotTables pageTexts tabula_df pages =
            Except.error (RunError.parseError tok)) ∧
    parse_page_numbers ("x".data) 5 = Except.error ("x".data) :=
  ⟨fun _ tok hall hbad ct pt td => run_extraction_model_error hall hbad ct pt td,
    by decide⟩

/-- Witness for C8: the spec `"x"` aborts the modelled run with the parse
error naming `"x"`, with arbitrary concrete backends. -/
theorem C8_parse_error_before_extraction_witness :
    run_extraction_model (fun _ => []) [] [] ("x".data) =
      Except.error (RunError.parseError ("x".data)) :=
  C8_parse_error_before_extraction.1 ("x".data) ("x".data) (by decide) (by decide)
    (fun _ => []) [] []

theorem run_extraction_sheets_eq (c p t : List (List Cell)) :
    run_extraction_sheets c p t =
      (if c = [] then [] else [("Camelot".data, clean_dataframe c)]) ++
      (if p = [] then [] else [("PDFPlumber".data, clean_dataframe p)]) ++
      (if t = [] then [] else [("Tabula".data, clean_dataframe t)]) := by
  simp only [run_extraction_sheets, write_sheets, clean_dataframe_isEmpty,
    List.isEmpty_iff]

/-- C4: the workbook written by `run_extraction` has exactly one sheet per
non-empty engine DataFrame, named by that engine's identifier, and no sheet
for an engine whose DataFrame is empty; sheet names never repeat, and with an
empty Camelot result and non-empty PDFPlumber and Tabula results exactly the
two sheets `PDFPlumber` and `Tabula` are written. -/
theorem C4_workbook_sheets_nonempty_only :
    (∀ (c p t : List (List Cell)) (name : List Char),
        (∃ df, (name, df) ∈ run_extraction_sheets c p t) ↔
          ((name = "Camelot".data ∧ c ≠ []) ∨ (name = "PDFPlumber".data ∧ p ≠ []) ∨
            (name = "Tabula".data ∧ t ≠ []))) ∧
    (∀ (c p t : List (List Cell)), ((run_extraction_sheets c p t).map Prod.fst).Nodup) ∧
    (run_extraction_sheets [] [[Cell.str ('a' :: [])]] [[Cell.str ('b' :: [])]]).map
      Prod.fst = ["PDFPlumber".data, "Tabula".data] := by
  refine ⟨?_, ?_, by decide⟩
  · intro c p t name
    by_cases hc : c = [] <;> by_cases hp : p = [] <;> by_cases ht : t = [] <;>
      simp [run_extraction_sheets_eq, hc, hp, ht, exists_or]
  · intro c p t
    by_cases hc : c = [] <;> by_cases hp : p = [] <;> by_cases ht : t = [] <;>
      (simp [run_extraction_sheets_eq, hc, hp, ht]; try decide)

/-- C2 counterexample: on the cell `"(\t1)"` — a parenthesized digit run with
a tab as the inner whitespace — the code returns `"-\t1"`, not the leading
`'-'` followed by the bare digit run `"1"` that the claim describes:
`strip('() ')` removes only parentheses and space characters, so the tab
survives. -/
theorem C2_clean_cell_tab_counterexample :
    clean_cell (Cell.str ("(\t1)".data)) = Cell.str ("-\t1".data) ∧
      Cell.str ("-\t1".data) ≠ Cell.str ('-' :: "1".data) :=
  ⟨by decide, by decide⟩

/-- C2 (amended): `normalize` removes all `'$'` and trims whitespace; the
rewrite branch is taken exactly when the remainder lies in the language of
`^\(\s*[\d,.]+\s*\)$` — `'('`, optional whitespace, a nonempty run of digits,
commas and periods, optional whitespace, `')'` — and it yields `'-'` followed
by the remainder with parentheses and space characters stripped from both
ends and commas removed (whitespace other than the space character, e.g. a
tab, survives next to the run); non-text cells pass through unchanged, and
`normalize("$1,234.56") = "1,234.56"`, `normalize("$ (1,234.56)") =
"-1234.56"`, `normalize("N/A") = "N/A"`. -/
theorem C2_clean_cell_spec :
    (∀ s : List Char, parenNumMatch s = true ↔ ParenRegexLang s) ∧
    (∀ k : Int, clean_cell (Cell.other k) = Cell.other k) ∧
    clean_cell (Cell.str ("$1,234.56".data)) = Cell.str ("1,234.56".data) ∧
    clean_cell (Cell.str ("$ (1,234.56)".data)) = Cell.str ("-1234.56".data) ∧
    clean_cell (Cell.str ("N/A".data)) = Cell.str ("N/A".data) :=
  ⟨parenNumMatch_iff, fun _ => rfl, by decide, by decide, by decide⟩

/-- C10 counterexample: normalization is not idempotent: `"(1\t)"` rewrites
to `"-1\t"`, whose trailing tab a second application strips to `"-1"`. -/
theorem C10_clean_cell_not_idempotent :
    clean_cell (clean_cell (Cell.str ("(1\t)".data))) ≠
      clean_cell (Cell.str ("(1\t)".data)) := by
  decide

/-- C10 (amended): `normalize ∘ normalize` is idempotent — a third
application never changes the value a second application produced; a single
application can differ from a double one only by the trailing whitespace that
the parenthesized-negative rewrite may expose. -/
theorem C10_clean_cell_stable_after_two (cell : Cell) :
    clean_cell (clean_cell (clean_cell cell)) = clean_cell (clean_cell cell) :=
  clean_cell_involutive_from_second cell

/-- C5: when the probe of `ensure_unique_filename` terminates, the returned
path does not exist; it is the candidate itself when the candidate did not
exist, and otherwise it is `base_k.ext` for the smallest `k ≥ 1` whose path
is unused (every smaller suffix existed). -/
theorem C5_ensure_unique_filename_spec :
    ∀ (fileExists : List Char → Bool) (filepath : List Char) (fuel : Nat)
      (r : List Char),
      ensure_unique_filename fileExists filepath fuel = some r →
      fileExists r = false ∧
      (fileExists filepath = false → r = filepath) ∧
      (fileExists filepath = true →
        ∃ k, 1 ≤ k ∧ r = candidate_path filepath k ∧
          ∀ j, 1 ≤ j → j < k → fileExists (candidate_path filepath j) = true) := by
  intro fileExists filepath fuel r h
  have := ensure_unique_loop_spec fileExists (splitext filepath).1
    (splitext filepath).2 fuel 1 filepath r h
  exact this

/-- Witness for C5: with `X.xlsx` and `X_1.xlsx` existing, probing from
`X.xlsx` returns `X_2.xlsx`, which does not exist, and `k = 2` is the least
free suffix. -/
theorem C5_ensure_unique_filename_spec_witness :
    ensure_unique_filename demoFileExists ("X.xlsx".data) 3 = some ("X_2.xlsx".data) ∧
    (demoFileExists ("X_2.xlsx".data) = false ∧
      (demoFileExists ("X.xlsx".data) = false → "X_2.xlsx".data = "X.xlsx".data) ∧
      (demoFileExists ("X.xlsx".data) = true →
        ∃ k, 1 ≤ k ∧ "X_2.xlsx".data = candidate_path ("X.xlsx".data) k ∧
          ∀ j, 1 ≤ j → j < k →
            demoFileExists (candidate_path ("X.xlsx".data) j) = true)) :=
  ⟨by decide, C5_ensure_unique_filename_spec demoFileExists ("X.xlsx".data) 3
    ("X_2.xlsx".data) (by decide)⟩

/-- C6 counterexample: the claim says no row is ever produced for a blank
line, but a page whose text is `"a\n\nb"` yields three rows, the middle one
holding the empty line: only whole-page emptiness is tested (`if text:`),
not per-line emptiness. -/
theorem C6_plumber_blank_line_row :
    extract_tables_pdfplumber_df [some ("a\n\nb".data)] =
      [[Cell.str ("a".data)], [Cell.str []], [Cell.str ("b".data)]] ∧
    [Cell.str []] ∈ extract_tables_pdfplumber_df [some ("a\n\nb".data)] :=
  ⟨by decide, by decide⟩

/-- C6 (amended): the plain-text engine emits one single-column row per line
— blank lines included — of every selected page whose extracted text is
present and non-empty; pages with missing or empty text contribute no rows.
A line appears among the rows exactly when it is a `split('\n')` line of such
a page. -/
theorem C6_plumber_rows_per_line :
    (∀ (texts : List (Option (List Char))) (line : List Char),
        line ∈ plumber_lines texts ↔
          ∃ s, some s ∈ texts ∧ s ≠ [] ∧ line ∈ s.splitOn '\n') ∧
    (∀ (texts : List (Option (List Char))) (row : List Cell),
        row ∈ extract_tables_pdfplumber_df texts → ∃ l, row = [Cell.str l]) ∧
    extract_tables_pdfplumber_df [some ("a\nb".data), none, some [], some ("c".data)] =
      [[Cell.str ("a".data)], [Cell.str ("b".data)], [Cell.str ("c".data)]] := by
  refine ⟨plumber_lines_mem, ?_, by decide⟩
  intro texts row h
  obtain ⟨l, _, rfl⟩ := List.mem_map.mp h
  exact ⟨l, rfl⟩

/-- Witness for C6: the row built from page text `"a"` is a single-column
row. -/
theorem C6_plumber_rows_per_line_witness :
    ∃ l, [Cell.str ("a".data)] = [Cell.str l] :=
  C6_plumber_rows_per_line.2.1 [some ("a".data)] [Cell.str ("a".data)] (by decide)

/-- C9 counterexample: the composer (`run_extraction`) does not upper-case
the client name it receives: the candidate filenames for client names `"ab"`
and `"AB"` differ, while the claim — composer upper-cases regardless of the
case received — would make them equal. -/
theorem C9_run_extraction_filename_case_sensitive :
    run_extraction_filename ("2024".data, "Annual".data, "Audited".data, "ab".data)
        ("doc.pdf".data) ≠
      run_extraction_filename ("2024".data, "Annual".data, "Audited".data, "AB".data)
        ("doc.pdf".data) := by
  decide

/-- C9 (amended): the candidate filename follows the fixed template
`year_period_auditStatus_clientName_baseName_Combined_Extracted.xlsx`, with
the client name upper-cased by the caller (`start_extraction`) before the
composer sees it — so the end-to-end filename is invariant under the case of
the client name entered, and a lower-case client input still yields an
upper-cased component. -/
theorem C9_start_extraction_filename_spec :
    (∀ (y p a c path : List Char),
        start_extraction_filename y p a c path =
          y ++ '_' :: p ++ '_' :: a ++ '_' :: pyUpper c ++
            '_' :: (splitext (basename path)).1 ++ "_Combined_Extracted.xlsx".data) ∧
    (∀ (y p a c c' path : List Char), pyUpper c = pyUpper c' →
        start_extraction_filename y p a c path =
          start_extraction_filename y p a c' path) ∧
    start_extraction_filename ("2024".data) ("Annual".data) ("Audited".data)
        ("aBc".data) ("C:/tmp/doc.pdf".data) =
      "2024_Annual_Audited_ABC_doc_Combined_Extracted.xlsx".data := by
  refine ⟨fun y p a c path => rfl, ?_, by decide⟩
  intro y p a c c' path h
  simp only [start_extraction_filename, start_extraction_user_inputs,
    run_extraction_filename, h]

/-- Witness for C9: client inputs `"ab"` and `"aB"` produce the same
filename. -/
theorem C9_start_extraction_filename_spec_witness :
    start_extraction_filename ("2024".data) ("A".data) ("B".data) ("ab".data)
        ("d.pdf".data) =
      start_extraction_filename ("2024".data) ("A".data) ("B".data) ("aB".data)
        ("d.pdf".data) :=
  C9_start_extraction_filename_spec.2.1 ("2024".data) ("A".data) ("B".data)
    ("ab".data) ("aB".data) ("d.pdf".data) (by decide)
